import Mathlib

/-!
# JobShell: the history ring and the process table of `myshell.c`

A shallow embedding of the bookkeeping code of `src/myshell.c`.

* The two global singly linked lists (`history_head`/`history_tail` and
  `process_list`) are Lean lists holding the nodes in `next` order.
* C `int`/`pid_t` values are `Int`; none of the arithmetic below can leave
  the 32-bit range (`history_size` never exceeds `HISTLEN`).
* A `NULL` dereference is an explicit result (`none`, `Lookup.nullDeref`,
  `Outcome.crashed`), never silently defined away.
-/

namespace JobShell

/-! ## History buffer -/

/-- Constant `#define HISTLEN 20`. -/
def HISTLEN : Int := 20

/-- The three history globals.  `history_head` is the chain of
`input_command`s reachable from the head pointer through `next`;
`history_tail` is the `input_command` of the node the tail pointer refers to
(`none` for `NULL`), which in every state built by `addHistory` is the last
node of the chain. -/
structure History where
  history_head : List String
  history_tail : Option String
  history_size : Int
deriving DecidableEq, Repr

/-- State at program start: `history_head = NULL`, `history_tail = NULL`,
`history_size = 0`. -/
def emptyHistory : History := ⟨[], none, 0⟩

/-- Function `addHistory` (successful `malloc`/`strdup`).  `none` is a `NULL`
dereference: `history_head->next` on an empty chain or `history_tail->next`
with a `NULL` tail. -/
def addHistory (h : History) (terminal_cmd : String) : Option History :=
  if h.history_size = 0 then
    some ⟨[terminal_cmd], some terminal_cmd, 1⟩
  else if h.history_size = HISTLEN then
    match h.history_head, h.history_tail with
    | _ :: rest, some _ => some ⟨rest ++ [terminal_cmd], some terminal_cmd, h.history_size⟩
    | _, _ => none
  else
    match h.history_tail with
    | some _ => some ⟨h.history_head ++ [terminal_cmd], some terminal_cmd, h.history_size + 1⟩
    | none => none

/-- Loop of `printHistory`: one `printf("%d: %s", count, input_command)` per
node, recorded as the pair `(count, input_command)`. -/
def printHistoryLoop : List String → Int → List (Int × String)
  | [], _ => []
  | s :: rest, count => (count, s) :: printHistoryLoop rest (count + 1)

/-- Function `printHistory`: starts at `history_head` with `count = 1`. -/
def printHistory (h : History) : List (Int × String) :=
  printHistoryLoop h.history_head 1

/-- What a call of `print_n_Command` does. -/
inductive Lookup where
  /-- returns `current->input_command` -/
  | line (s : String)
  /-- prints `history number n does not exist` and returns `0` -/
  | doesNotExist (n : Int)
  /-- reads a field of `current` while `current == NULL` -/
  | nullDeref
deriving DecidableEq, Repr

/-- The `while(n > 1){ current = current->next; n--; }` loop followed by
`return current->input_command`, for `k = n - 1` remaining steps. -/
def nthNode : List String → Nat → Lookup
  | [], _ => Lookup.nullDeref
  | s :: _, 0 => Lookup.line s
  | _ :: rest, k + 1 => nthNode rest k

/-- Function `print_n_Command`. -/
def print_n_Command (h : History) (n : Int) : Lookup :=
  if n > h.history_size + 1 ∨ n < 1 then Lookup.doesNotExist n
  else nthNode h.history_head (n - 1).toNat

/-- The history after the lines `ls` were appended, in order, to the empty
history (`none` if some append faulted). -/
def appendAll (ls : List String) : Option History :=
  ls.foldlM addHistory emptyHistory

/-- Closed form of the state reached by appending `ls`: the last
`min ls.length 20` lines. -/
def retained (ls : List String) : History :=
  ⟨ls.drop (ls.length - 20), ls.getLast?, min (ls.length : Int) 20⟩

/-! ## Command descriptors and jobs -/

/-- Constant `#define TERMINATED -1`. -/
def TERMINATED : Int := -1

/-- Constant `#define RUNNING 1`. -/
def RUNNING : Int := 1

/-- Constant `#define SUSPENDED 0`. -/
def SUSPENDED : Int := 0

/-- Modelled from the spec: the `cmdLine` record of `LineParser.h`, which is
not among the sources.  It carries the argv-style argument strings
(`arguments[i]` is `NULL` from index `argCount = arguments.length` on), the
optional input and output redirect paths (`none` for `NULL`), the blocking
flag and the optional link to the next pipeline stage. -/
inductive cmdLine where
  | mk (arguments : List String) (inputRedirect : Option String)
      (outputRedirect : Option String) (blocking : Bool) (next : Option cmdLine)

namespace cmdLine

/-- Field `arguments`. -/
def arguments : cmdLine → List String
  | mk a _ _ _ _ => a

/-- Field `inputRedirect`. -/
def inputRedirect : cmdLine → Option String
  | mk _ i _ _ _ => i

/-- Field `outputRedirect`. -/
def outputRedirect : cmdLine → Option String
  | mk _ _ o _ _ => o

/-- Field `blocking`. -/
def blocking : cmdLine → Bool
  | mk _ _ _ b _ => b

/-- Field `next`. -/
def next : cmdLine → Option cmdLine
  | mk _ _ _ _ n => n

end cmdLine

/-- The `struct process` without its `next` pointer: the process list is a Lean
list of these nodes in `next` order. -/
structure process where
  cmd : cmdLine
  pid : Int
  status : Int

/-- Function `addProcess`: the new node becomes the head. -/
def addProcess (process_list : List process) (cmd : cmdLine) (pid : Int) (status : Int) :
    List process :=
  ⟨cmd, pid, status⟩ :: process_list

/-! ## The operating system as seen by the shell -/

/-- Constant `ECHILD` of `<errno.h>` on Linux. -/
def ECHILD : Int := 10

/-- Constant `SIGINT` of `<signal.h>` on Linux. -/
def SIGINT : Int := 2

/-- Constant `SIGCONT` of `<signal.h>` on Linux. -/
def SIGCONT : Int := 18

/-- Constant `SIGSTOP` of `<signal.h>` on Linux. -/
def SIGSTOP : Int := 19

/-- The test `WIFEXITED(s)` of glibc: `((s) & 0x7f) == 0`. -/
def WIFEXITED (s : Int) : Bool := s % 128 == 0

/-- The test `WIFSIGNALED(s)` of glibc: `((signed char) (((s) & 0x7f) + 1) >> 1) > 0`,
that is, the low seven bits are neither `0` nor `0x7f`. -/
def WIFSIGNALED (s : Int) : Bool := decide (1 ≤ s % 128) && decide (s % 128 ≤ 126)

/-- The test `WIFSTOPPED(s)` of glibc: `((s) & 0xff) == 0x7f`. -/
def WIFSTOPPED (s : Int) : Bool := s % 256 == 127

/-- The test `WIFCONTINUED(s)` of glibc: `(s) == 0xffff`. -/
def WIFCONTINUED (s : Int) : Bool := s == 65535

/-- What one `waitpid(pid, &status, WNOHANG)` call gives back: its return
value, the word stored in `status` (read only when `ret > 0`) and `errno`
(read only when `ret == -1`). -/
structure WaitResult where
  ret : Int
  wstatus : Int
  errno : Int

/-- Answers of the system calls the shell makes while it runs one command.
`waitpid k pid` answers the `k`-th (from 0) non-blocking wait of a
reconcile pass, `kill pid sig`, `chdir dir` and `pipe` give return values,
`fork k` is the return value of the `k`-th (from 0) `fork` of the command.
`debug_mode` is the global set by the `-d` flag. -/
structure OS where
  waitpid : Nat → Int → WaitResult
  kill : Int → Int → Int
  chdir : String → Int
  pipe : Int
  fork : Nat → Int
  debug_mode : Bool

/-- One printed row of `printProcessList`:
`index`, `pid`, status name, and the arguments `0 .. argCount-1`. -/
structure ProcLine where
  index : Int
  pid : Int
  status : String
  arguments : List String
deriving DecidableEq, Repr

/-- Observable actions of the shell process, in program order. -/
inductive Event where
  /-- call of `fprintf(stderr, ...)` with the formatted text -/
  | stderr (text : String)
  /-- call of `perror(msg)` -/
  | perror (msg : String)
  /-- the header and rows written by `printProcessList` -/
  | procs (rows : List ProcLine)
  /-- call of `kill(pid, sig)` -/
  | kill (pid : Int) (sig : Int)
  /-- call of `chdir(dir)` -/
  | chdir (dir : String)
  /-- call of `pipe(pipe_fd)` -/
  | pipe
  /-- call of `fork()` -/
  | fork
  /-- call of `close(pipe_fd[1])` when `writeEnd`, else `close(pipe_fd[0])` -/
  | close (writeEnd : Bool)
  /-- blocking `waitpid(pid, NULL, 0)` -/
  | wait (pid : Int)
deriving DecidableEq, Repr

/-- How a call of `execute` or `executePipeCommand` ends for the process
that runs it. -/
inductive Outcome where
  /-- the function returns to the control loop with this process list -/
  | returned (process_list : List process)
  /-- the shell calls `exit(code)` -/
  | exited (code : Int)
  /-- this is a forked child: every path ends in `execvp` or `_exit(1)`
  and never comes back to the control loop -/
  | child
  /-- a `NULL` pointer is dereferenced -/
  | crashed

/-! ## Process table -/

/-- Body of the `updateProcessList` loop for one node: the new `status`
given the answer of `waitpid`. -/
def reconcileStatus (w : WaitResult) (status : Int) : Int :=
  if w.ret > 0 then
    if WIFEXITED w.wstatus || WIFSIGNALED w.wstatus then TERMINATED
    else if WIFSTOPPED w.wstatus then SUSPENDED
    else if WIFCONTINUED w.wstatus then RUNNING
    else status
  else if w.ret = -1 then
    if w.errno = ECHILD then TERMINATED else status
  else status

/-- The `while(current != NULL)` loop of `updateProcessList`; `k` counts the
`waitpid` calls made so far. -/
def updateProcessListLoop (waitpid : Nat → Int → WaitResult) :
    Nat → List process → List process
  | _, [] => []
  | k, p :: rest =>
    ⟨p.cmd, p.pid, reconcileStatus (waitpid k p.pid) p.status⟩
      :: updateProcessListLoop waitpid (k + 1) rest

/-- Function `updateProcessList`. -/
def updateProcessList (os : OS) (process_list : List process) : List process :=
  updateProcessListLoop os.waitpid 0 process_list

/-- The status name chosen in `printProcessList`. -/
def statusName (status : Int) : String :=
  if status = RUNNING then "Running"
  else if status = SUSPENDED then "Suspended"
  else "Terminated"

/-- The `while(current != NULL)` loop of `printProcessList`, from `current`
with the running `index`: the rows printed and the nodes left linked. -/
def printProcessListLoop : List process → Int → List ProcLine × List process
  | [], _ => ([], [])
  | current :: rest, index =>
    let row : ProcLine := ⟨index, current.pid, statusName current.status, current.cmd.arguments⟩
    let r := printProcessListLoop rest (index + 1)
    if current.status = TERMINATED then (row :: r.1, r.2)
    else (row :: r.1, current :: r.2)

/-- Function `printProcessList`: reconcile, then print every node and unlink the
terminated ones. -/
def printProcessList (os : OS) (process_list : List process) :
    List ProcLine × List process :=
  printProcessListLoop (updateProcessList os process_list) 0

/-- Function `updateProcessStatus`: the first node with this `pid` gets `status`. -/
def updateProcessStatus : List process → Int → Int → List process
  | [], _, _ => []
  | current :: rest, pid, status =>
    if current.pid = pid then ⟨current.cmd, current.pid, status⟩ :: rest
    else current :: updateProcessStatus rest pid status

/-! ## Signal controller -/

/-- Function `wakeupProcess`. -/
def wakeupProcess (os : OS) (process_id : Int) (process_list : List process) :
    List Event × List process :=
  if os.kill process_id SIGCONT = -1 then
    ([Event.kill process_id SIGCONT, Event.stderr (toString process_id ++ " wakeup failed\n")],
      process_list)
  else
    ([Event.kill process_id SIGCONT,
      Event.stderr ("Send signal wakeup to process " ++ toString process_id ++ "\n")],
      updateProcessStatus process_list process_id RUNNING)

/-- Function `haltProcess`. -/
def haltProcess (os : OS) (process_id : Int) (process_list : List process) :
    List Event × List process :=
  if os.kill process_id SIGSTOP = -1 then
    ([Event.kill process_id SIGSTOP, Event.stderr (toString process_id ++ " halt failed\n")],
      process_list)
  else
    ([Event.kill process_id SIGSTOP,
      Event.stderr ("Send signal halt to process " ++ toString process_id ++ "\n")],
      updateProcessStatus process_list process_id SUSPENDED)

/-- Function `iceProcess`. -/
def iceProcess (os : OS) (process_id : Int) (process_list : List process) :
    List Event × List process :=
  if os.kill process_id SIGINT = -1 then
    ([Event.kill process_id SIGINT, Event.stderr (toString process_id ++ " ice failed")],
      process_list)
  else
    ([Event.kill process_id SIGINT,
      Event.stderr ("Send signal ice to process " ++ toString process_id ++ "\n")],
      updateProcessStatus process_list process_id TERMINATED)

/-! ## Executors -/

/-- Function `isspace` in the C locale: space and the controls `\t \n \v \f \r`. -/
def isspace (c : Char) : Bool :=
  c.toNat == 32 || (decide (9 ≤ c.toNat) && decide (c.toNat ≤ 13))

/-- Function `isdigit`. -/
def isdigit (c : Char) : Bool :=
  decide (48 ≤ c.toNat) && decide (c.toNat ≤ 57)

/-- Value of the leading run of decimal digits, continuing from `acc`. -/
def digitsValue : List Char → Nat → Nat
  | [], acc => acc
  | c :: rest, acc =>
    if isdigit c then digitsValue rest (acc * 10 + (c.toNat - 48)) else acc

/-- Function `strtol(s, NULL, 10)` on a 64-bit `long`: leading white space, an
optional sign, the longest run of digits; out-of-range values saturate. -/
def strtol (s : String) : Int :=
  let cs := s.toList.dropWhile isspace
  let v : Int :=
    match cs with
    | [] => 0
    | c :: rest =>
      if c.toNat = 45 then -((digitsValue rest 0 : Nat) : Int)
      else if c.toNat = 43 then ((digitsValue rest 0 : Nat) : Int)
      else ((digitsValue cs 0 : Nat) : Int)
  max (-(2 ^ 63)) (min v (2 ^ 63 - 1))

/-- Conversion of a `long` to a 32-bit `int` (two's complement). -/
def toInt32 (v : Int) : Int := (v + 2 ^ 31) % 2 ^ 32 - 2 ^ 31

/-- Function `atoi` of glibc: `(int) strtol(s, NULL, 10)`. -/
def atoi (s : String) : Int := toInt32 (strtol s)

/-- Function `execute`, run by the shell on `pCmdLine` with the global `process_list`.
`arguments[0] == NULL` makes the first `strcmp` read through `NULL`. -/
def execute (os : OS) (pCmdLine : cmdLine) (process_list : List process) :
    List Event × Outcome :=
  match pCmdLine.arguments with
  | [] => ([], Outcome.crashed)
  | command :: _ =>
    if command = "cd" then
      match pCmdLine.arguments.get? 1 with
      | none => ([Event.stderr "cd: missing argument\n"], Outcome.returned process_list)
      | some dir =>
        if os.chdir dir ≠ 0 then
          ([Event.chdir dir, Event.perror "cd failed"], Outcome.returned process_list)
        else ([Event.chdir dir], Outcome.returned process_list)
    else if command = "procs" then
      let r := printProcessList os process_list
      ([Event.procs r.1], Outcome.returned r.2)
    else if command = "halt" ∨ command = "wakeup" ∨ command = "ice" then
      match pCmdLine.arguments.get? 1 with
      | none =>
        ([Event.stderr (command ++ ": missing process-id\n")], Outcome.returned process_list)
      | some arg =>
        let process_id := atoi arg
        if process_id ≠ 0 then
          if command = "halt" then
            let r := haltProcess os process_id process_list
            (r.1, Outcome.returned r.2)
          else if command = "wakeup" then
            let r := wakeupProcess os process_id process_list
            (r.1, Outcome.returned r.2)
          else
            let r := iceProcess os process_id process_list
            (r.1, Outcome.returned r.2)
        else
          ([Event.stderr (command ++ ": process-id is not valid\n")],
            Outcome.returned process_list)
    else
      let pid := os.fork 0
      if pid = 0 then ([Event.fork], Outcome.child)
      else if pid > 0 then
        let dbg : List Event :=
          if os.debug_mode then
            [Event.stderr ("PID: " ++ toString pid ++ "\n"),
             Event.stderr ("Executing command: " ++ command ++ "\n")]
          else []
        if pCmdLine.blocking then
          (Event.fork :: dbg ++ [Event.wait pid],
            Outcome.returned (addProcess process_list pCmdLine pid TERMINATED))
        else
          (Event.fork :: dbg,
            Outcome.returned (addProcess process_list pCmdLine pid RUNNING))
      else ([Event.fork, Event.perror "fork failed"], Outcome.exited 1)

/-- Function `executePipeCommand`, run by the shell on the chain `pCmd` with the
global `process_list`.  The control loop calls it only when
`pCmd->next != NULL`; with a `NULL` link the reads through `pCmd->next`
fault. -/
def executePipeCommand (os : OS) (pCmd : cmdLine) (process_list : List process) :
    List Event × Outcome :=
  match pCmd.next with
  | none => ([], Outcome.crashed)
  | some nxt =>
    if pCmd.outputRedirect ≠ none ∨ nxt.inputRedirect ≠ none then
      ([Event.perror "Error: cannot redirect left-side output or right-side input in a pipe\n"],
        Outcome.returned process_list)
    else if os.pipe = -1 then
      ([Event.pipe, Event.perror "pipe failed\n"], Outcome.exited 1)
    else
      let pid1 := os.fork 0
      if pid1 = 0 then ([Event.pipe, Event.fork], Outcome.child)
      else if pid1 > 0 then
        let pid2 := os.fork 1
        if pid2 < 0 then
          ([Event.pipe, Event.fork, Event.close true, Event.fork,
            Event.perror "fork faild for child 2\n"], Outcome.exited 1)
        else if pid2 = 0 then
          ([Event.pipe, Event.fork, Event.close true, Event.fork], Outcome.child)
        else
          let l1 := addProcess process_list pCmd pid1 RUNNING
          let w1 : List Event := if pCmd.blocking then [Event.wait pid1] else []
          let l2 :=
            if nxt.blocking then addProcess l1 nxt pid2 TERMINATED
            else addProcess l1 nxt pid2 RUNNING
          let w2 : List Event := if nxt.blocking then [Event.wait pid2] else []
          ([Event.pipe, Event.fork, Event.close true, Event.fork, Event.close false] ++ w1 ++ w2,
            Outcome.returned l2)
      else
        ([Event.pipe, Event.fork, Event.perror "fork failed for child 1\n"], Outcome.exited 1)

/-! ## Derived notions used in the statements -/

/-- The process list after the calls `addProcess(&l, a.cmd, a.pid, a.status)`
for `a` in `adds`, in that order, starting from the empty list. -/
def addCalls (adds : List process) : List process :=
  adds.foldl (fun l a => addProcess l a.cmd a.pid a.status) []

/-- The identity of a job: its command descriptor and process id. -/
def jobKey (p : process) : cmdLine × Int := (p.cmd, p.pid)

/-! ## Sample inputs -/

/-- The descriptor of the background command `sleep 100 &`. -/
def sleepCmd : cmdLine := cmdLine.mk ["sleep", "100"] none none false none

/-- The descriptor of the foreground command `ls -l`. -/
def lsCmd : cmdLine := cmdLine.mk ["ls", "-l"] none none true none

/-- An operating system in which every signal is delivered, every `fork`
gives child 4242, `pipe` and `chdir` succeed, and every non-blocking wait
answers with `wait0`. -/
def osWith (wait0 : WaitResult) : OS :=
  ⟨fun _ _ => wait0, fun _ _ => 0, fun _ => 0, 0, fun _ => 4242, false⟩

/-- The answer of `waitpid` for child 100 in signal-delivery-stop on `SIGINT`
(a child that asked to be traced): `ret = 100`, `status = 0x027f`. -/
def stoppedOnSigint : WaitResult := ⟨100, 0x027f, 0⟩

/-- An operating system whose `k`-th non-blocking wait answers with the
`k`-th entry of `answers` (no change when there is none). -/
def osAnswering (answers : List WaitResult) : OS :=
  ⟨fun k _ => answers.getD k ⟨0, 0, 0⟩, fun _ _ => 0, fun _ => 0, 0, fun _ => 4242, false⟩

/-- Five wait answers: exited with code 0, stopped by `SIGSTOP`, continued,
failure with `ECHILD`, no change. -/
def fiveAnswers : List WaitResult :=
  [⟨11, 0, 0⟩, ⟨12, 0x137f, 0⟩, ⟨13, 0xffff, 0⟩, ⟨-1, 0, 10⟩, ⟨0, 0, 0⟩]

/-- Five running background jobs with pids 11 to 15, head first. -/
def fiveJobs : List process :=
  [⟨sleepCmd, 11, 1⟩, ⟨sleepCmd, 12, 1⟩, ⟨sleepCmd, 13, 0⟩, ⟨sleepCmd, 14, 1⟩, ⟨sleepCmd, 15, 0⟩]

/-- Stage A of `ls > out.txt | wc`: an output redirect on the left side. -/
def lsToFile (nxt : cmdLine) : cmdLine :=
  cmdLine.mk ["ls"] none (some "out.txt") true (some nxt)

/-- The descriptor of `wc` as a last pipeline stage. -/
def wcCmd : cmdLine := cmdLine.mk ["wc"] none none true none

/-- An operating system in which `kill` fails with `-1` for every pid and
signal. -/
def osKillFails : OS :=
  ⟨fun _ _ => ⟨0, 0, 0⟩, fun _ _ => -1, fun _ => 0, 0, fun _ => 4242, false⟩

/-- Two tracked jobs, pids 7 and 8, both running. -/
def twoJobs : List process := [⟨sleepCmd, 7, 1⟩, ⟨lsCmd, 8, 1⟩]

/-- Three `addProcess` calls: a finished `ls -l` as pid 5, then two running
`sleep 100 &` as pids 6 and 7. -/
def threeAdds : List process := [⟨lsCmd, 5, -1⟩, ⟨sleepCmd, 6, 1⟩, ⟨sleepCmd, 7, 1⟩]

/-- The command names `execute` intercepts before it forks. -/
def builtins : List String := ["cd", "procs", "halt", "wakeup", "ice"]

/-- The descriptor of `halt 12abc`. -/
def haltGarbage : cmdLine := cmdLine.mk ["halt", "12abc"] none none true none

/-- The descriptor of `ice` with no argument. -/
def iceNoArg : cmdLine := cmdLine.mk ["ice"] none none true none

/-- The descriptor of `wakeup abc`. -/
def wakeupWord : cmdLine := cmdLine.mk ["wakeup", "abc"] none none true none

/-- The descriptor of `procs`. -/
def procsCmd : cmdLine := cmdLine.mk ["procs"] none none true none

/-! ## The `!!` expansion of the control loop -/

/-- What the `!!` branch of `main` does with the history. -/
inductive Expansion where
  /-- prints `history_tail->input_command` and copies it into `input` -/
  | entry (s : String)
  /-- calls `perror("No history is available")` and leaves `input` as typed -/
  | noHistory
  /-- reads `history_tail->input_command` while `history_tail == NULL` -/
  | nullDeref
deriving DecidableEq, Repr

/-- The branch of `main` taken when the line starts with `!!`:
`if (history_size != 0)` the tail entry is printed and copied, else the
missing history is reported. -/
def repeatLast (h : History) : Expansion :=
  if h.history_size ≠ 0 then
    match h.history_tail with
    | some s => Expansion.entry s
    | none => Expansion.nullDeref
  else Expansion.noHistory

/-- Stage A of `ls -ls | wc`, linked to stage B `wc`; `blocking` is the flag
of stage A. -/
def lsPipe (blocking : Bool) : cmdLine :=
  cmdLine.mk ["ls", "-ls"] none none blocking (some wcCmd)

/-- An operating system in which `pipe` succeeds and the `k`-th `fork` of a
command returns child pid `500 + k`. -/
def osForking : OS :=
  ⟨fun _ _ => ⟨0, 0, 0⟩, fun _ _ => 0, fun _ => 0, 0, fun k => 500 + (k : Int), false⟩

/-! ## Theorems: history buffer -/

theorem printHistoryLoop_snd (l : List String) (c : Int) :
    (printHistoryLoop l c).map Prod.snd = l := by
  induction l generalizing c with
  | nil => rfl
  | cons s rest ih => simp [printHistoryLoop, ih]

theorem printHistoryLoop_fst (l : List String) (c : Int) :
    (printHistoryLoop l c).map Prod.fst
      = (List.range l.length).map (fun (i : Nat) => c + (i : Int)) := by
  induction l generalizing c with
  | nil => rfl
  | cons s rest ih =>
    simp only [printHistoryLoop, List.map_cons, List.length_cons, List.range_succ_eq_map,
      List.map_map, ih]
    simp only [List.cons.injEq]
    constructor
    · simp
    · apply List.map_congr_left
      intro i _
      simp only [Function.comp_apply]
      push_cast
      ring

theorem addHistory_retained (ls : List String) (s : String) :
    addHistory (retained ls) s = some (retained (ls ++ [s])) := by
  rcases Nat.eq_zero_or_pos ls.length with h0 | hpos
  · have : ls = [] := List.length_eq_zero.mp h0
    subst this
    simp [addHistory, retained]
  · have hne : ls ≠ [] := by
      intro h; simp [h] at hpos
    obtain ⟨t, ht⟩ : ∃ t, ls.getLast? = some t := by
      cases hl : ls.getLast? with
      | none => exact absurd (List.getLast?_eq_none_iff.mp hl) hne
      | some t => exact ⟨t, rfl⟩
    have hsz0 : ¬ (min (ls.length : Int) 20 = 0) := by omega
    by_cases hfull : 20 ≤ ls.length
    · have hsz : min (ls.length : Int) 20 = 20 := by omega
      have hdrop : ls.drop (ls.length - 20) ≠ [] := by
        intro h
        have := congrArg List.length h
        simp at this
        omega
      obtain ⟨x, rest, hx⟩ := List.exists_cons_of_ne_nil hdrop
      have hrest : rest = ls.drop (ls.length + 1 - 20) := by
        have h1 : (ls.drop (ls.length - 20)).drop 1 = rest := by rw [hx]; rfl
        rw [← h1, List.drop_drop]
        congr 1
        omega
      have hle : ls.length + 1 - 20 ≤ ls.length := by omega
      simp only [addHistory, retained, hsz, HISTLEN, hx, ht, List.length_append,
        List.length_singleton, List.getLast?_append, List.getLast?_singleton]
      have hle2 : ls.length - 19 ≤ ls.length := by omega
      simp [hrest, List.drop_append_of_le_length hle2]
      omega
    · have hlt : ls.length < 20 := Nat.lt_of_not_le hfull
      have hsz : min (ls.length : Int) 20 = ls.length := by omega
      have hne20 : ¬ ((ls.length : Int) = 20) := by omega
      have e1 : ls.length - 20 = 0 := by omega
      have e2 : ls.length + 1 - 20 = 0 := by omega
      have hsz0b : ¬ ((ls.length : Int) = 0) := by omega
      simp only [addHistory, retained, hsz, HISTLEN, ht, List.length_append,
        List.length_singleton, List.getLast?_append, List.getLast?_singleton, e1, e2,
        List.drop_zero, hne20, hsz0b, if_false]
      simp
      omega

theorem appendAll_eq_retained (ls : List String) : appendAll ls = some (retained ls) := by
  induction ls using List.reverseRecOn with
  | nil => rfl
  | append_singleton l s ih =>
    unfold appendAll at ih ⊢
    rw [List.foldlM_append, ih]
    simp [addHistory_retained]

theorem retained_head_length (ls : List String) :
    (retained ls).history_head.length = min ls.length 20 := by
  simp only [retained, List.length_drop]
  omega

theorem nthNode_eq (l : List String) (k : Nat) :
    nthNode l k = match l.get? k with
      | some s => Lookup.line s
      | none => Lookup.nullDeref := by
  induction l generalizing k with
  | nil => simp [nthNode]
  | cons s rest ih =>
    cases k with
    | zero => simp [nthNode]
    | succ k => simpa [nthNode] using ih k

/-- What `print_n_Command` does on the history reached by appending `ls`:
identity lookup for `1 ≤ n ≤ size`, the report for `n < 1` and for
`n > size + 1`, and a `NULL` dereference for `n = size + 1`. -/
theorem print_n_Command_retained (ls : List String) (n : Int) :
    (1 ≤ n ∧ n ≤ (retained ls).history_size →
      ∃ s, (retained ls).history_head.get? (n - 1).toNat = some s ∧
        print_n_Command (retained ls) n = Lookup.line s) ∧
    (n < 1 ∨ n > (retained ls).history_size + 1 →
      print_n_Command (retained ls) n = Lookup.doesNotExist n) ∧
    (n = (retained ls).history_size + 1 →
      print_n_Command (retained ls) n = Lookup.nullDeref) := by
  have hlen := retained_head_length ls
  have hsize : (retained ls).history_size = min (ls.length : Int) 20 := rfl
  refine ⟨?_, ?_, ?_⟩
  · rintro ⟨h1, h2⟩
    have hk : (n - 1).toNat < (retained ls).history_head.length := by omega
    refine ⟨(retained ls).history_head.get ⟨_, hk⟩, List.get?_eq_get hk, ?_⟩
    have hc : ¬ (n > (retained ls).history_size + 1 ∨ n < 1) := by omega
    simp only [print_n_Command, hc, if_false, nthNode_eq, List.get?_eq_get hk]
  · intro h
    have hc : n > (retained ls).history_size + 1 ∨ n < 1 := by omega
    simp only [print_n_Command, hc, if_true]
  · intro h
    have hc : ¬ (n > (retained ls).history_size + 1 ∨ n < 1) := by omega
    have hk : (retained ls).history_head.length ≤ (n - 1).toNat := by omega
    simp only [print_n_Command, hc, if_false, nthNode_eq, List.get?_eq_none.mpr hk]

/-- C1 (failing input): on the empty history, which is the state before any
line was appended, `print_n_Command 1` passes the range test
`n > history_size + 1 || n < 1` and dereferences the `NULL` head instead of
reporting that entry 1 does not exist. -/
theorem print_n_Command_empty_one_faults :
    appendAll [] = some emptyHistory ∧
      print_n_Command emptyHistory 1 = Lookup.nullDeref ∧
      print_n_Command emptyHistory 1 ≠ Lookup.doesNotExist 1 := by
  decide

/-- C2: appending any `k` lines to the empty history succeeds and retains
exactly the last `min k 20` of them in insertion order; the chain length and
`history_size` are `min k 20` (so never above 20), and `printHistory` prints
those lines numbered `1 .. min k 20`. -/
theorem history_ring_keeps_last_20 (ls : List String) :
    ∃ h, appendAll ls = some h ∧
      h.history_head = ls.drop (ls.length - min ls.length 20) ∧
      h.history_head.length = min ls.length 20 ∧
      h.history_head.length ≤ 20 ∧
      h.history_size = min (ls.length : Int) 20 ∧
      (printHistory h).map Prod.snd = ls.drop (ls.length - min ls.length 20) ∧
      (printHistory h).map Prod.fst
        = (List.range (min ls.length 20)).map (fun (i : Nat) => (i : Int) + 1) := by
  have hd : ls.length - min ls.length 20 = ls.length - 20 := by omega
  have hlen := retained_head_length ls
  refine ⟨retained ls, appendAll_eq_retained ls, ?_, hlen, ?_, rfl, ?_, ?_⟩
  · rw [hd]; rfl
  · omega
  · rw [hd]; exact printHistoryLoop_snd _ _
  · unfold printHistory
    rw [printHistoryLoop_fst, hlen]
    apply List.map_congr_left
    intro i _
    ring

/-! ## Theorems: process table -/

theorem addCalls_foldl (adds l : List process) :
    adds.foldl (fun l a => addProcess l a.cmd a.pid a.status) l = adds.reverse ++ l := by
  induction adds generalizing l with
  | nil => rfl
  | cons a rest ih => simp [List.foldl_cons, ih, addProcess]

theorem addCalls_eq_reverse (adds : List process) : addCalls adds = adds.reverse := by
  simp [addCalls, addCalls_foldl]

theorem updateProcessListLoop_length (w : Nat → Int → WaitResult) (k : Nat) (l : List process) :
    (updateProcessListLoop w k l).length = l.length := by
  induction l generalizing k with
  | nil => rfl
  | cons p rest ih => simp [updateProcessListLoop, ih]

theorem updateProcessListLoop_jobKey (w : Nat → Int → WaitResult) (k : Nat) (l : List process) :
    (updateProcessListLoop w k l).map jobKey = l.map jobKey := by
  induction l generalizing k with
  | nil => rfl
  | cons p rest ih => simp [updateProcessListLoop, ih, jobKey]

theorem updateProcessListLoop_get? (w : Nat → Int → WaitResult) (k i : Nat) (l : List process)
    (p : process) (hp : l.get? i = some p) :
    (updateProcessListLoop w k l).get? i
      = some ⟨p.cmd, p.pid, reconcileStatus (w (k + i) p.pid) p.status⟩ := by
  induction l generalizing k i with
  | nil => simp at hp
  | cons q rest ih =>
    cases i with
    | zero =>
      simp only [List.get?_cons_zero, Option.some.injEq] at hp
      subst hp
      simp [updateProcessListLoop]
    | succ i =>
      simp only [List.get?_cons_succ] at hp
      simp only [updateProcessListLoop, List.get?_cons_succ]
      rw [ih (k + 1) i hp]
      congr 4
      omega

theorem printProcessListLoop_index (l : List process) (index : Int) :
    (printProcessListLoop l index).1.map ProcLine.index
      = (List.range l.length).map (fun (i : Nat) => index + (i : Int)) := by
  induction l generalizing index with
  | nil => rfl
  | cons p rest ih =>
    have hstep : (printProcessListLoop (p :: rest) index).1.map ProcLine.index
        = index :: (printProcessListLoop rest (index + 1)).1.map ProcLine.index := by
      simp only [printProcessListLoop]
      split <;> rfl
    rw [hstep, ih, List.length_cons, List.range_succ_eq_map, List.map_cons, List.map_map]
    simp only [List.cons.injEq]
    constructor
    · simp
    · apply List.map_congr_left
      intro i _
      simp only [Function.comp_apply]
      push_cast
      ring

theorem printProcessListLoop_rows (l : List process) (index : Int) :
    (printProcessListLoop l index).1.map (fun r => (r.pid, r.status, r.arguments))
      = l.map (fun p => (p.pid, statusName p.status, p.cmd.arguments)) := by
  induction l generalizing index with
  | nil => rfl
  | cons p rest ih =>
    have hstep : (printProcessListLoop (p :: rest) index).1
        = ⟨index, p.pid, statusName p.status, p.cmd.arguments⟩
            :: (printProcessListLoop rest (index + 1)).1 := by
      simp only [printProcessListLoop]
      split <;> rfl
    rw [hstep, List.map_cons, ih, List.map_cons]

theorem printProcessListLoop_table (l : List process) (index : Int) :
    (printProcessListLoop l index).2
      = l.filter (fun p => decide (p.status ≠ TERMINATED)) := by
  induction l generalizing index with
  | nil => rfl
  | cons p rest ih =>
    by_cases h : p.status = TERMINATED
    · simp [printProcessListLoop, h, ih]
    · simp [printProcessListLoop, h, ih]

/-- C3: after any sequence of `addProcess` calls the list holds the jobs
most recently added first; `printProcessList` prints one row per job of the
reconciled list, in that order, with indices `0, 1, 2, ...`, the job's pid,
arguments and reconciled status name; and the list it leaves is exactly the
reconciled jobs whose status is not `TERMINATED`, in order and unchanged, so
no job left in the list is `TERMINATED`. -/
theorem printProcessList_rows_and_removal (os : OS) (adds : List process) :
    addCalls adds = adds.reverse ∧
    (printProcessList os (addCalls adds)).1.length = adds.length ∧
    (printProcessList os (addCalls adds)).1.map ProcLine.index
      = (List.range adds.length).map (fun (i : Nat) => (i : Int)) ∧
    (printProcessList os (addCalls adds)).1.map (fun r => (r.pid, r.arguments))
      = adds.reverse.map (fun p => (p.pid, p.cmd.arguments)) ∧
    (printProcessList os (addCalls adds)).1.map ProcLine.status
      = (updateProcessList os (addCalls adds)).map (fun p => statusName p.status) ∧
    (printProcessList os (addCalls adds)).2
      = (updateProcessList os (addCalls adds)).filter
          (fun p => decide (p.status ≠ TERMINATED)) ∧
    (∀ p ∈ (printProcessList os (addCalls adds)).2, p.status ≠ TERMINATED) := by
  have hrev := addCalls_eq_reverse adds
  have hlen : (updateProcessList os (addCalls adds)).length = adds.length := by
    simp [updateProcessList, updateProcessListLoop_length, hrev]
  have hkey := updateProcessListLoop_jobKey os.waitpid 0 (addCalls adds)
  have hrows := printProcessListLoop_rows (updateProcessList os (addCalls adds)) 0
  have hidx := printProcessListLoop_index (updateProcessList os (addCalls adds)) 0
  have htab := printProcessListLoop_table (updateProcessList os (addCalls adds)) 0
  refine ⟨hrev, ?_, ?_, ?_, ?_, htab, ?_⟩
  · have := congrArg List.length hidx
    simpa [hlen] using this
  · unfold printProcessList
    rw [hidx, hlen]
    apply List.map_congr_left
    intro i _
    simp
  · have h1 := congrArg (List.map (fun (x : Int × String × List String) => (x.1, x.2.2))) hrows
    have h2 := congrArg (List.map (fun (x : cmdLine × Int) => (x.2, x.1.arguments))) hkey
    simp only [List.map_map] at h1 h2
    unfold printProcessList
    rw [← hrev]
    calc List.map (fun r => (r.pid, r.arguments))
          (printProcessListLoop (updateProcessList os (addCalls adds)) 0).1
        = List.map (fun p => (p.pid, p.cmd.arguments))
            (updateProcessList os (addCalls adds)) := h1
      _ = List.map (fun p => (p.pid, p.cmd.arguments)) (addCalls adds) := h2
  · have h1 := congrArg (List.map (fun (x : Int × String × List String) => x.2.1)) hrows
    simp only [List.map_map] at h1
    exact h1
  · intro p hp
    unfold printProcessList at hp
    rw [htab] at hp
    simpa using (List.mem_filter.mp hp).2

/-- C3 (witness): three jobs added as pids 5, 6, 7, the first already
terminated; the rows are numbered 0, 1, 2 and list pids 7, 6, 5; job 7 stays
in the list and is not `TERMINATED`. -/
theorem printProcessList_rows_and_removal_witness :
    (printProcessList (osWith ⟨0, 0, 0⟩) (addCalls threeAdds)).1.map ProcLine.index
      = [0, 1, 2] ∧
    (printProcessList (osWith ⟨0, 0, 0⟩) (addCalls threeAdds)).1.map ProcLine.pid
      = [7, 6, 5] ∧
    (printProcessList (osWith ⟨0, 0, 0⟩) (addCalls threeAdds)).2.map process.pid = [7, 6] ∧
    (⟨sleepCmd, 7, 1⟩ : process).status ≠ TERMINATED :=
  ⟨(printProcessList_rows_and_removal (osWith ⟨0, 0, 0⟩) threeAdds).2.2.1,
   by decide, by decide,
   (printProcessList_rows_and_removal (osWith ⟨0, 0, 0⟩) threeAdds).2.2.2.2.2.2
     ⟨sleepCmd, 7, 1⟩ (List.mem_cons_self _ _)⟩

/-! ## Theorems: reconciliation -/

theorem wait_flags_exclusive (s : Int) :
    (WIFSTOPPED s = true → WIFEXITED s = false ∧ WIFSIGNALED s = false) ∧
    (WIFCONTINUED s = true →
      WIFEXITED s = false ∧ WIFSIGNALED s = false ∧ WIFSTOPPED s = false) := by
  constructor
  · intro h
    simp only [WIFSTOPPED, beq_iff_eq] at h
    have h1 : ¬ (s % 128 = 0) := by omega
    have h2 : ¬ (s % 128 ≤ 126) := by omega
    simp [WIFEXITED, WIFSIGNALED, h1, h2]
  · intro h
    simp only [WIFCONTINUED, beq_iff_eq] at h
    subst h
    decide

theorem reconcileStatus_cases (w : WaitResult) (status : Int) :
    (w.ret > 0 → (WIFEXITED w.wstatus = true ∨ WIFSIGNALED w.wstatus = true) →
      reconcileStatus w status = TERMINATED) ∧
    (w.ret > 0 → WIFSTOPPED w.wstatus = true → reconcileStatus w status = SUSPENDED) ∧
    (w.ret > 0 → WIFCONTINUED w.wstatus = true → reconcileStatus w status = RUNNING) ∧
    (w.ret = -1 → w.errno = ECHILD → reconcileStatus w status = TERMINATED) ∧
    (w.ret = 0 → reconcileStatus w status = status) := by
  refine ⟨?_, ?_, ?_, ?_, ?_⟩
  · intro hr h
    have hb : (WIFEXITED w.wstatus || WIFSIGNALED w.wstatus) = true := by
      rcases h with h | h <;> simp [h]
    simp [reconcileStatus, hr, hb]
  · intro hr h
    obtain ⟨h1, h2⟩ := (wait_flags_exclusive w.wstatus).1 h
    simp [reconcileStatus, hr, h, h1, h2]
  · intro hr h
    obtain ⟨h1, h2, h3⟩ := (wait_flags_exclusive w.wstatus).2 h
    simp [reconcileStatus, hr, h, h1, h2, h3]
  · intro hr he
    simp [reconcileStatus, hr, he]
  · intro hr
    simp [reconcileStatus, hr]

theorem reconcileStatus_terminated (w : WaitResult)
    (hw : ¬ (w.ret > 0 ∧ (WIFSTOPPED w.wstatus = true ∨ WIFCONTINUED w.wstatus = true))) :
    reconcileStatus w TERMINATED = TERMINATED := by
  unfold reconcileStatus
  split
  · next hr =>
    split
    · rfl
    · split
      · next hs => exact absurd ⟨hr, Or.inl hs⟩ hw
      · split
        · next hc => exact absurd ⟨hr, Or.inr hc⟩ hw
        · rfl
  · split
    · split <;> rfl
    · rfl

/-- C4 (counterexample): job 100 is running, `ice 100` delivers `SIGINT` and
marks it `TERMINATED`; the next reconcile pass, whose wait on that job
reports it stopped, sets it to `SUSPENDED`. -/
theorem reconcile_regresses_iced_job :
    (iceProcess (osWith stoppedOnSigint) 100 [⟨sleepCmd, 100, RUNNING⟩]).2.map process.status
      = [TERMINATED] ∧
    (updateProcessList (osWith stoppedOnSigint)
        (iceProcess (osWith stoppedOnSigint) 100 [⟨sleepCmd, 100, RUNNING⟩]).2).map
        process.status = [SUSPENDED] ∧
    SUSPENDED ≠ TERMINATED := by
  decide

/-- C4 (amended): a job that is `TERMINATED` before `updateProcessList` is
still `TERMINATED` after it whenever its wait does not report a stop or a
continue, that is for no change, an exit, a kill by signal, and a failure
with any `errno`. -/
theorem reconcile_keeps_terminated (os : OS) (t : List process) (i : Nat) (p : process)
    (hp : t.get? i = some p) (hT : p.status = TERMINATED)
    (hw : ¬ ((os.waitpid i p.pid).ret > 0 ∧
      (WIFSTOPPED (os.waitpid i p.pid).wstatus = true ∨
        WIFCONTINUED (os.waitpid i p.pid).wstatus = true))) :
    ∃ q, (updateProcessList os t).get? i = some q ∧ q.cmd = p.cmd ∧ q.pid = p.pid ∧
      q.status = TERMINATED := by
  refine ⟨_, updateProcessListLoop_get? os.waitpid 0 i t p hp, rfl, rfl, ?_⟩
  simp only [Nat.zero_add, hT]
  exact reconcileStatus_terminated _ hw

/-- C4 (witness): a terminated job whose wait fails with `ECHILD`. -/
theorem reconcile_keeps_terminated_witness :
    ∃ q, (updateProcessList (osWith ⟨-1, 0, 10⟩) [⟨sleepCmd, 100, TERMINATED⟩]).get? 0 = some q ∧
      q.cmd = sleepCmd ∧ q.pid = 100 ∧ q.status = TERMINATED :=
  reconcile_keeps_terminated (osWith ⟨-1, 0, 10⟩) [⟨sleepCmd, 100, TERMINATED⟩] 0
    ⟨sleepCmd, 100, TERMINATED⟩ rfl rfl (by decide)

/-- C6: `updateProcessList` keeps the number, order, command descriptors and
pids of the jobs, and the job at position `i` gets status `TERMINATED` when
its wait reports an exit or a kill by signal, `SUSPENDED` when it reports a
stop, `RUNNING` when it reports a continue, `TERMINATED` when the wait fails
with `ECHILD`, and keeps its status when the wait returns 0. -/
theorem updateProcessList_status_mapping (os : OS) (t : List process) :
    (updateProcessList os t).length = t.length ∧
    (updateProcessList os t).map jobKey = t.map jobKey ∧
    ∀ (i : Nat) (p : process), t.get? i = some p →
      ∃ q, (updateProcessList os t).get? i = some q ∧ q.cmd = p.cmd ∧ q.pid = p.pid ∧
        ((os.waitpid i p.pid).ret > 0 →
          (WIFEXITED (os.waitpid i p.pid).wstatus = true ∨
            WIFSIGNALED (os.waitpid i p.pid).wstatus = true) → q.status = TERMINATED) ∧
        ((os.waitpid i p.pid).ret > 0 → WIFSTOPPED (os.waitpid i p.pid).wstatus = true →
          q.status = SUSPENDED) ∧
        ((os.waitpid i p.pid).ret > 0 → WIFCONTINUED (os.waitpid i p.pid).wstatus = true →
          q.status = RUNNING) ∧
        ((os.waitpid i p.pid).ret = -1 → (os.waitpid i p.pid).errno = ECHILD →
          q.status = TERMINATED) ∧
        ((os.waitpid i p.pid).ret = 0 → q.status = p.status) := by
  refine ⟨updateProcessListLoop_length _ _ _, updateProcessListLoop_jobKey _ _ _, ?_⟩
  intro i p hp
  refine ⟨_, updateProcessListLoop_get? os.waitpid 0 i t p hp, rfl, rfl, ?_⟩
  simp only [Nat.zero_add]
  exact reconcileStatus_cases (os.waitpid i p.pid) p.status

/-- C6 (witness): five jobs whose waits report, in order, an exit, a stop,
a continue, an `ECHILD` failure and no change. -/
theorem updateProcessList_status_mapping_witness :
    (updateProcessList (osAnswering fiveAnswers) fiveJobs).length = fiveJobs.length ∧
    (∃ q, (updateProcessList (osAnswering fiveAnswers) fiveJobs).get? 0 = some q ∧
      q.status = TERMINATED) ∧
    (∃ q, (updateProcessList (osAnswering fiveAnswers) fiveJobs).get? 1 = some q ∧
      q.status = SUSPENDED) ∧
    (∃ q, (updateProcessList (osAnswering fiveAnswers) fiveJobs).get? 2 = some q ∧
      q.status = RUNNING) ∧
    (∃ q, (updateProcessList (osAnswering fiveAnswers) fiveJobs).get? 3 = some q ∧
      q.status = TERMINATED) ∧
    (∃ q, (updateProcessList (osAnswering fiveAnswers) fiveJobs).get? 4 = some q ∧
      q.status = 0) := by
  have h := updateProcessList_status_mapping (osAnswering fiveAnswers) fiveJobs
  refine ⟨h.1, ?_, ?_, ?_, ?_, ?_⟩
  · obtain ⟨q, hq, _, _, h1, _, _, _, _⟩ := h.2.2 0 ⟨sleepCmd, 11, 1⟩ rfl
    exact ⟨q, hq, h1 (by decide) (by decide)⟩
  · obtain ⟨q, hq, _, _, _, h2, _, _, _⟩ := h.2.2 1 ⟨sleepCmd, 12, 1⟩ rfl
    exact ⟨q, hq, h2 (by decide) (by decide)⟩
  · obtain ⟨q, hq, _, _, _, _, h3, _, _⟩ := h.2.2 2 ⟨sleepCmd, 13, 0⟩ rfl
    exact ⟨q, hq, h3 (by decide) (by decide)⟩
  · obtain ⟨q, hq, _, _, _, _, _, h4, _⟩ := h.2.2 3 ⟨sleepCmd, 14, 1⟩ rfl
    exact ⟨q, hq, h4 (by decide) (by decide)⟩
  · obtain ⟨q, hq, _, _, _, _, _, _, h5⟩ := h.2.2 4 ⟨sleepCmd, 15, 0⟩ rfl
    exact ⟨q, hq, h5 (by decide)⟩

/-! ## Theorems: pipeline validation -/

/-- C5: when stage A has an output redirect or stage B has an input
redirect, `executePipeCommand` only reports the error through `perror` and
returns: its trace holds no `pipe` and no `fork`, and the process list it
returns with is the one it was called with. -/
theorem executePipeCommand_rejects_redirects (os : OS) (A B : cmdLine)
    (process_list : List process) (hnext : A.next = some B)
    (h : A.outputRedirect ≠ none ∨ B.inputRedirect ≠ none) :
    executePipeCommand os A process_list
      = ([Event.perror
            "Error: cannot redirect left-side output or right-side input in a pipe\n"],
          Outcome.returned process_list) ∧
    Event.pipe ∉ (executePipeCommand os A process_list).1 ∧
    Event.fork ∉ (executePipeCommand os A process_list).1 := by
  have hrun : executePipeCommand os A process_list
      = ([Event.perror
            "Error: cannot redirect left-side output or right-side input in a pipe\n"],
          Outcome.returned process_list) := by
    unfold executePipeCommand
    rw [hnext]
    simp only [if_pos h]
  rw [hrun]
  simp

/-- C5 (witness): `ls > out.txt | wc` with two tracked jobs. -/
theorem executePipeCommand_rejects_redirects_witness :
    (lsToFile wcCmd).next = some wcCmd ∧
    executePipeCommand (osWith ⟨0, 0, 0⟩) (lsToFile wcCmd) twoJobs
      = ([Event.perror
            "Error: cannot redirect left-side output or right-side input in a pipe\n"],
          Outcome.returned twoJobs) :=
  ⟨rfl, (executePipeCommand_rejects_redirects (osWith ⟨0, 0, 0⟩) (lsToFile wcCmd) wcCmd twoJobs
    rfl (Or.inl (by decide))).1⟩

/-! ## Theorems: signal controller -/

theorem updateProcessStatus_not_found (t : List process) (pid status : Int)
    (h : ∀ p ∈ t, p.pid ≠ pid) : updateProcessStatus t pid status = t := by
  induction t with
  | nil => rfl
  | cons p rest ih =>
    have hp : p.pid ≠ pid := h p (List.mem_cons_self _ _)
    have hrest : ∀ q ∈ rest, q.pid ≠ pid := fun q hq => h q (List.mem_cons_of_mem _ hq)
    simp [updateProcessStatus, hp, ih hrest]

theorem updateProcessStatus_first (pre : List process) (p : process) (post : List process)
    (pid status : Int) (hpre : ∀ q ∈ pre, q.pid ≠ pid) (hp : p.pid = pid) :
    updateProcessStatus (pre ++ p :: post) pid status
      = pre ++ ⟨p.cmd, p.pid, status⟩ :: post := by
  induction pre with
  | nil => simp [updateProcessStatus, hp]
  | cons q rest ih =>
    have hq : q.pid ≠ pid := hpre q (List.mem_cons_self _ _)
    have hrest : ∀ r ∈ rest, r.pid ≠ pid := fun r hr => hpre r (List.mem_cons_of_mem _ hr)
    simp [updateProcessStatus, hq, ih hrest]

/-- C7: when `kill` returns `-1`, each of `haltProcess`, `wakeupProcess` and
`iceProcess` writes its failure message to `stderr` after the `kill` call and
leaves the process list, hence every status, exactly as it was. -/
theorem signal_failure_leaves_table (os : OS) (process_id : Int) (t : List process) :
    (os.kill process_id SIGSTOP = -1 →
      haltProcess os process_id t
        = ([Event.kill process_id SIGSTOP,
            Event.stderr (toString process_id ++ " halt failed\n")], t)) ∧
    (os.kill process_id SIGCONT = -1 →
      wakeupProcess os process_id t
        = ([Event.kill process_id SIGCONT,
            Event.stderr (toString process_id ++ " wakeup failed\n")], t)) ∧
    (os.kill process_id SIGINT = -1 →
      iceProcess os process_id t
        = ([Event.kill process_id SIGINT,
            Event.stderr (toString process_id ++ " ice failed")], t)) := by
  refine ⟨?_, ?_, ?_⟩
  · intro h; simp [haltProcess, h]
  · intro h; simp [wakeupProcess, h]
  · intro h; simp [iceProcess, h]

/-- C7 (witness): the three operations on pid 7 when `kill` fails. -/
theorem signal_failure_leaves_table_witness :
    (haltProcess osKillFails 7 twoJobs).2 = twoJobs ∧
    (wakeupProcess osKillFails 7 twoJobs).2 = twoJobs ∧
    (iceProcess osKillFails 7 twoJobs).2 = twoJobs :=
  ⟨congrArg Prod.snd ((signal_failure_leaves_table osKillFails 7 twoJobs).1 (by decide)),
   congrArg Prod.snd ((signal_failure_leaves_table osKillFails 7 twoJobs).2.1 (by decide)),
   congrArg Prod.snd ((signal_failure_leaves_table osKillFails 7 twoJobs).2.2 (by decide))⟩

/-- C8: when `kill` does not return `-1`, `haltProcess`, `wakeupProcess` and
`iceProcess` leave the list `updateProcessStatus` gives for `SUSPENDED`,
`RUNNING` and `TERMINATED`; `updateProcessStatus` returns the list unchanged
when no job has the pid, and otherwise replaces only the status of the first
job with that pid, keeping its descriptor and pid, every other job and the
order. -/
theorem signal_success_updates_first_match (os : OS) (process_id : Int) (t : List process) :
    (os.kill process_id SIGSTOP ≠ -1 →
      (haltProcess os process_id t).2 = updateProcessStatus t process_id SUSPENDED) ∧
    (os.kill process_id SIGCONT ≠ -1 →
      (wakeupProcess os process_id t).2 = updateProcessStatus t process_id RUNNING) ∧
    (os.kill process_id SIGINT ≠ -1 →
      (iceProcess os process_id t).2 = updateProcessStatus t process_id TERMINATED) ∧
    (∀ status : Int, (∀ p ∈ t, p.pid ≠ process_id) →
      updateProcessStatus t process_id status = t) ∧
    (∀ (status : Int) (pre : List process) (p : process) (post : List process),
      t = pre ++ p :: post → (∀ q ∈ pre, q.pid ≠ process_id) → p.pid = process_id →
      updateProcessStatus t process_id status = pre ++ ⟨p.cmd, p.pid, status⟩ :: post) := by
  refine ⟨?_, ?_, ?_, ?_, ?_⟩
  · intro h; simp [haltProcess, h]
  · intro h; simp [wakeupProcess, h]
  · intro h; simp [iceProcess, h]
  · intro status h
    exact updateProcessStatus_not_found t process_id status h
  · intro status pre p post ht hpre hp
    rw [ht]
    exact updateProcessStatus_first pre p post process_id status hpre hp

/-- C8 (witness): signals to pid 8, the second of two jobs, are delivered;
a status change for the untracked pid 9 is a no-op. -/
theorem signal_success_updates_first_match_witness :
    (haltProcess (osWith ⟨0, 0, 0⟩) 8 twoJobs).2 = updateProcessStatus twoJobs 8 SUSPENDED ∧
    (wakeupProcess (osWith ⟨0, 0, 0⟩) 8 twoJobs).2 = updateProcessStatus twoJobs 8 RUNNING ∧
    (iceProcess (osWith ⟨0, 0, 0⟩) 8 twoJobs).2 = updateProcessStatus twoJobs 8 TERMINATED ∧
    updateProcessStatus twoJobs 9 TERMINATED = twoJobs ∧
    updateProcessStatus twoJobs 8 TERMINATED
      = [⟨sleepCmd, 7, 1⟩] ++ ⟨lsCmd, 8, TERMINATED⟩ :: [] :=
  ⟨(signal_success_updates_first_match (osWith ⟨0, 0, 0⟩) 8 twoJobs).1 (by decide),
   (signal_success_updates_first_match (osWith ⟨0, 0, 0⟩) 8 twoJobs).2.1 (by decide),
   (signal_success_updates_first_match (osWith ⟨0, 0, 0⟩) 8 twoJobs).2.2.1 (by decide),
   (signal_success_updates_first_match (osWith ⟨0, 0, 0⟩) 9 twoJobs).2.2.2.1 TERMINATED
     (by decide),
   (signal_success_updates_first_match (osWith ⟨0, 0, 0⟩) 8 twoJobs).2.2.2.2 TERMINATED
     [⟨sleepCmd, 7, 1⟩] ⟨lsCmd, 8, 1⟩ [] rfl (by decide) rfl⟩

/-! ## Theorems: single-command executor -/

theorem updateProcessStatus_jobKey (t : List process) (pid status : Int) :
    (updateProcessStatus t pid status).map jobKey = t.map jobKey := by
  induction t with
  | nil => rfl
  | cons p rest ih =>
    by_cases hp : p.pid = pid
    · simp [updateProcessStatus, hp, jobKey]
    · simp [updateProcessStatus, hp, ih]

theorem printProcessList_jobKey_sublist (os : OS) (t : List process) :
    ((printProcessList os t).2.map jobKey).Sublist (t.map jobKey) := by
  unfold printProcessList
  rw [printProcessListLoop_table, ← updateProcessListLoop_jobKey os.waitpid 0 t]
  exact (List.filter_sublist _).map jobKey

theorem signal_ops_jobKey (os : OS) (pid : Int) (t : List process) :
    (haltProcess os pid t).2.map jobKey = t.map jobKey ∧
    (wakeupProcess os pid t).2.map jobKey = t.map jobKey ∧
    (iceProcess os pid t).2.map jobKey = t.map jobKey := by
  refine ⟨?_, ?_, ?_⟩
  · unfold haltProcess; split <;> simp [updateProcessStatus_jobKey]
  · unfold wakeupProcess; split <;> simp [updateProcessStatus_jobKey]
  · unfold iceProcess; split <;> simp [updateProcessStatus_jobKey]

theorem signal_ops_no_fork (os : OS) (pid : Int) (t : List process) :
    Event.fork ∉ (haltProcess os pid t).1 ∧
    Event.fork ∉ (wakeupProcess os pid t).1 ∧
    Event.fork ∉ (iceProcess os pid t).1 := by
  refine ⟨?_, ?_, ?_⟩
  · unfold haltProcess; split <;> simp
  · unfold wakeupProcess; split <;> simp
  · unfold iceProcess; split <;> simp

theorem execute_forks_job (os : OS) (c : cmdLine) (t : List process) (command : String)
    (rest : List String) (hargs : c.arguments = command :: rest)
    (hb : command ∉ builtins) (hfork : os.fork 0 > 0) :
    (execute os c t).2
      = Outcome.returned
          (⟨c, os.fork 0, if c.blocking = true then TERMINATED else RUNNING⟩ :: t) := by
  simp only [builtins, List.mem_cons, List.mem_singleton, List.not_mem_nil, or_false,
    not_or] at hb
  obtain ⟨h1, h2, h3, h4, h5⟩ := hb
  have h0 : ¬ (os.fork 0 = 0) := by omega
  have h345 : ¬ (command = "halt" ∨ command = "wakeup" ∨ command = "ice") := by
    rintro (h | h | h)
    · exact h3 h
    · exact h4 h
    · exact h5 h
  simp only [execute, hargs, if_neg h1, if_neg h2, if_neg h345, if_neg h0, if_pos hfork]
  by_cases hbl : c.blocking = true
  · simp [hbl, addProcess]
  · simp [hbl, addProcess]

theorem execute_builtin (os : OS) (c : cmdLine) (t : List process) (command : String)
    (rest : List String) (hargs : c.arguments = command :: rest)
    (hb : command ∈ builtins) :
    ∃ t', (execute os c t).2 = Outcome.returned t' ∧
      (t'.map jobKey).Sublist (t.map jobKey) ∧ Event.fork ∉ (execute os c t).1 := by
  simp only [builtins, List.mem_cons, List.mem_singleton, List.not_mem_nil, or_false] at hb
  rcases hb with h | h | h | h | h
  · subst h
    simp only [execute, hargs, if_true]
    cases hg : (("cd" :: rest).get? 1) with
    | none => exact ⟨t, rfl, List.Sublist.refl _, by simp⟩
    | some dir =>
      by_cases hd : os.chdir dir ≠ 0
      · exact ⟨t, by simp [hd], List.Sublist.refl _, by simp [hd]⟩
      · exact ⟨t, by simp [hd], List.Sublist.refl _, by simp [hd]⟩
  · subst h
    have hne : ¬ ("procs" = "cd") := by decide
    simp only [execute, hargs, if_neg hne, if_true]
    exact ⟨_, rfl, printProcessList_jobKey_sublist os t, by simp⟩
  all_goals
    have hcd : ¬ (command = "cd") := by subst h; decide
    have hprocs : ¬ (command = "procs") := by subst h; decide
    have hsig : command = "halt" ∨ command = "wakeup" ∨ command = "ice" := by simp [h]
    simp only [execute, hargs, if_neg hcd, if_neg hprocs, if_pos hsig]
    cases hg : ((command :: rest).get? 1) with
    | none => exact ⟨t, rfl, List.Sublist.refl _, by simp⟩
    | some arg =>
      by_cases hz : atoi arg ≠ 0
      · simp only [if_pos hz]
        have hk := signal_ops_jobKey os (atoi arg) t
        have hf := signal_ops_no_fork os (atoi arg) t
        by_cases hh : command = "halt"
        · simp only [if_pos hh]
          exact ⟨_, rfl, by rw [hk.1], hf.1⟩
        · simp only [if_neg hh]
          by_cases hwk : command = "wakeup"
          · simp only [if_pos hwk]
            exact ⟨_, rfl, by rw [hk.2.1], hf.2.1⟩
          · simp only [if_neg hwk]
            exact ⟨_, rfl, by rw [hk.2.2], hf.2.2⟩
      · simp only [if_neg hz]
        exact ⟨t, rfl, List.Sublist.refl _, by simp⟩

/-- C9: for a command whose name is not a built-in and whose `fork` returns a
child pid `p > 0`, `execute` returns with exactly one new job at the head of
the process list, holding the descriptor and `p`, `TERMINATED` when the
blocking flag is set and `RUNNING` when it is not, followed by the old list
unchanged.  For `cd`, `procs`, `halt`, `wakeup` and `ice`, `execute` returns
without forking and the jobs of the list it leaves are, as descriptor and pid,
a sublist of the jobs before: none is added. -/
theorem execute_registers_one_job (os : OS) (c : cmdLine) (t : List process)
    (command : String) (hc : c.arguments.head? = some command) :
    (command ∉ builtins → os.fork 0 > 0 →
      (execute os c t).2
        = Outcome.returned
            (⟨c, os.fork 0, if c.blocking = true then TERMINATED else RUNNING⟩ :: t)) ∧
    (command ∈ builtins →
      ∃ t', (execute os c t).2 = Outcome.returned t' ∧
        (t'.map jobKey).Sublist (t.map jobKey) ∧ t'.length ≤ t.length ∧
        Event.fork ∉ (execute os c t).1) := by
  obtain ⟨rest, hargs⟩ : ∃ rest, c.arguments = command :: rest := by
    cases h : c.arguments with
    | nil => simp [h] at hc
    | cons a rest =>
      simp only [h, List.head?_cons, Option.some.injEq] at hc
      exact ⟨rest, by rw [hc]⟩
  constructor
  · intro hb hfork
    exact execute_forks_job os c t command rest hargs hb hfork
  · intro hb
    obtain ⟨t', h1, h2, h3⟩ := execute_builtin os c t command rest hargs hb
    refine ⟨t', h1, h2, ?_, h3⟩
    have := h2.length_le
    simpa using this

/-- C9 (witness): `sleep 100 &` and `ls -l` forked as child 4242 on top of
two tracked jobs, and the built-in `procs` on the same list. -/
theorem execute_registers_one_job_witness :
    (execute (osWith ⟨0, 0, 0⟩) sleepCmd twoJobs).2
      = Outcome.returned (⟨sleepCmd, 4242, RUNNING⟩ :: twoJobs) ∧
    (execute (osWith ⟨0, 0, 0⟩) lsCmd twoJobs).2
      = Outcome.returned (⟨lsCmd, 4242, TERMINATED⟩ :: twoJobs) ∧
    (∃ t', (execute (osWith ⟨0, 0, 0⟩) procsCmd twoJobs).2 = Outcome.returned t' ∧
      (t'.map jobKey).Sublist (twoJobs.map jobKey) ∧ t'.length ≤ twoJobs.length ∧
      Event.fork ∉ (execute (osWith ⟨0, 0, 0⟩) procsCmd twoJobs).1) :=
  ⟨(execute_registers_one_job (osWith ⟨0, 0, 0⟩) sleepCmd twoJobs "sleep" rfl).1
      (by decide) (by decide),
   (execute_registers_one_job (osWith ⟨0, 0, 0⟩) lsCmd twoJobs "ls" rfl).1
      (by decide) (by decide),
   (execute_registers_one_job (osWith ⟨0, 0, 0⟩) procsCmd twoJobs "procs" rfl).2 (by decide)⟩

/-- C10 (counterexample): `halt 12abc`.  The argument is not a number (it is
not made of digits only), yet `atoi` reads 12 from it and `execute` delivers
`SIGSTOP` to process 12 and marks the tracked job 12 `SUSPENDED`. -/
theorem halt_with_trailing_text_signals :
    "12abc".toList.all isdigit = false ∧
    atoi "12abc" = 12 ∧
    (execute (osWith ⟨0, 0, 0⟩) haltGarbage [⟨sleepCmd, 12, RUNNING⟩]).1.head?
      = some (Event.kill 12 SIGSTOP) ∧
    (∃ t', (execute (osWith ⟨0, 0, 0⟩) haltGarbage [⟨sleepCmd, 12, RUNNING⟩]).2
        = Outcome.returned t' ∧ t'.map process.status = [SUSPENDED]) ∧
    RUNNING ≠ SUSPENDED := by
  refine ⟨by decide, by decide, by decide, ⟨_, rfl, by decide⟩, by decide⟩

/-- C10 (amended): for `halt`, `wakeup` and `ice`, when `arguments[1]` is
missing or `atoi` of it is 0, `execute` writes the one error message to
`stderr` and returns with the process list unchanged: no `kill`, no `fork`. -/
theorem execute_signal_builtin_rejects (os : OS) (c : cmdLine) (t : List process)
    (command : String) (hc : c.arguments.head? = some command)
    (hb : command = "halt" ∨ command = "wakeup" ∨ command = "ice")
    (harg : c.arguments.get? 1 = none ∨ ∃ a, c.arguments.get? 1 = some a ∧ atoi a = 0) :
    execute os c t
      = ([Event.stderr (command ++
            (if c.arguments.get? 1 = none then ": missing process-id\n"
             else ": process-id is not valid\n"))],
          Outcome.returned t) ∧
    (∀ pid sig : Int, Event.kill pid sig ∉ (execute os c t).1) ∧
    Event.fork ∉ (execute os c t).1 := by
  obtain ⟨rest, hargs⟩ : ∃ rest, c.arguments = command :: rest := by
    cases h : c.arguments with
    | nil => simp [h] at hc
    | cons a rest =>
      simp only [h, List.head?_cons, Option.some.injEq] at hc
      exact ⟨rest, by rw [hc]⟩
  have hcd : ¬ (command = "cd") := by
    rcases hb with h | h | h <;> (subst h; decide)
  have hprocs : ¬ (command = "procs") := by
    rcases hb with h | h | h <;> (subst h; decide)
  have hrun : execute os c t
      = ([Event.stderr (command ++
            (if c.arguments.get? 1 = none then ": missing process-id\n"
             else ": process-id is not valid\n"))],
          Outcome.returned t) := by
    rw [hargs] at harg
    simp only [execute, hargs, if_neg hcd, if_neg hprocs, if_pos hb]
    rcases harg with hnone | ⟨a, ha, hz⟩
    · simp only [hnone, if_true]
    · have hsome : ¬ (some a = (none : Option String)) := fun h => Option.noConfusion h
      have hz2 : ¬ (atoi a ≠ 0) := fun h => h hz
      simp only [ha, if_neg hsome, if_neg hz2]
  rw [hrun]
  simp

/-- C10 (witness): `ice` without an argument and `wakeup abc`. -/
theorem execute_signal_builtin_rejects_witness :
    execute osKillFails iceNoArg twoJobs
      = ([Event.stderr ("ice" ++ ": missing process-id\n")], Outcome.returned twoJobs) ∧
    execute osKillFails wakeupWord twoJobs
      = ([Event.stderr ("wakeup" ++ ": process-id is not valid\n")],
          Outcome.returned twoJobs) :=
  ⟨(execute_signal_builtin_rejects osKillFails iceNoArg twoJobs "ice" rfl
      (Or.inr (Or.inr rfl)) (Or.inl rfl)).1,
   (execute_signal_builtin_rejects osKillFails wakeupWord twoJobs "wakeup" rfl
      (Or.inr (Or.inl rfl)) (Or.inr ⟨"abc", rfl, by decide⟩)).1⟩

/-! ## Theorems: `!!` expansion and pipeline registration -/

theorem repeatLast_retained_append (ls : List String) (s : String) :
    repeatLast (retained (ls ++ [s])) = Expansion.entry s := by
  have hsz : ¬ (min (((ls ++ [s]).length : Nat) : Int) 20 = 0) := by
    simp only [List.length_append, List.length_singleton]
    omega
  simp only [repeatLast, retained, List.getLast?_append, List.getLast?_singleton]
  simp only [ne_eq, hsz, not_false_eq_true, if_true]
  rfl

/-- C11: after any sequence of appends that ends with the line `s` (every
non-empty sequence, of any length, is of this form) the appends succeed, the
history is non-empty and the `!!` branch returns `s`, the most recently
appended line; on the empty history it reports that no history is available
and returns no entry. -/
theorem repeatLast_returns_latest (ls : List String) (s : String) :
    (∃ h, appendAll (ls ++ [s]) = some h ∧ h.history_size ≠ 0 ∧
      h.history_tail = some s ∧ h.history_head.getLast? = some s ∧
      repeatLast h = Expansion.entry s) ∧
    appendAll [] = some emptyHistory ∧
    repeatLast emptyHistory = Expansion.noHistory := by
  refine ⟨⟨retained (ls ++ [s]), appendAll_eq_retained _, ?_, ?_, ?_,
    repeatLast_retained_append ls s⟩, rfl, rfl⟩
  · simp only [retained, List.length_append, List.length_singleton]
    omega
  · simp [retained]
  · have hle : ls.length + 1 - 20 ≤ ls.length := by omega
    simp only [retained, List.length_append, List.length_singleton,
      List.drop_append_of_le_length hle, List.getLast?_append, List.getLast?_singleton]
    rfl

/-- C12: for a two-stage chain without a left-side output redirect and
without a right-side input redirect, when `pipe` does not fail and both
`fork` calls return child pids `p1 > 0` and `p2 > 0`, `executePipeCommand`
returns with stage B (pid `p2`) at the head of the process list, then stage A
(pid `p1`), then the old list unchanged; stage A has status `RUNNING` whatever
its blocking flag, stage B has `TERMINATED` if its blocking flag is set and
`RUNNING` otherwise. -/
theorem executePipeCommand_registers_two_jobs (os : OS) (A B : cmdLine)
    (process_list : List process) (hnext : A.next = some B)
    (hA : A.outputRedirect = none) (hB : B.inputRedirect = none)
    (hpipe : os.pipe ≠ -1) (h1 : os.fork 0 > 0) (h2 : os.fork 1 > 0) :
    (executePipeCommand os A process_list).2
      = Outcome.returned
          (⟨B, os.fork 1, if B.blocking = true then TERMINATED else RUNNING⟩
            :: ⟨A, os.fork 0, RUNNING⟩ :: process_list) := by
  have hred : ¬ (A.outputRedirect ≠ none ∨ B.inputRedirect ≠ none) := by
    rintro (h | h)
    · exact h hA
    · exact h hB
  have h10 : ¬ (os.fork 0 = 0) := by omega
  have h2neg : ¬ (os.fork 1 < 0) := by omega
  have h20 : ¬ (os.fork 1 = 0) := by omega
  unfold executePipeCommand
  rw [hnext]
  simp only [if_neg hred, if_neg hpipe, if_neg h10, if_pos h1, if_neg h2neg, if_neg h20]
  by_cases hb : B.blocking = true
  · simp [hb, addProcess]
  · simp [hb, addProcess]

/-- C12 (witness): `ls -ls | wc` with a blocking and with a background stage
A, children 500 and 501, on top of two tracked jobs. -/
theorem executePipeCommand_registers_two_jobs_witness :
    (executePipeCommand osForking (lsPipe true) twoJobs).2
      = Outcome.returned (⟨wcCmd, 501, TERMINATED⟩ :: ⟨lsPipe true, 500, RUNNING⟩ :: twoJobs) ∧
    (executePipeCommand osForking (lsPipe false) twoJobs).2
      = Outcome.returned
          (⟨wcCmd, 501, TERMINATED⟩ :: ⟨lsPipe false, 500, RUNNING⟩ :: twoJobs) :=
  ⟨executePipeCommand_registers_two_jobs osForking (lsPipe true) wcCmd twoJobs rfl rfl rfl
      (by decide) (by decide) (by decide),
   executePipeCommand_registers_two_jobs osForking (lsPipe false) wcCmd twoJobs rfl rfl rfl
      (by decide) (by decide) (by decide)⟩

end JobShell
